import Mathlib

/-!
Verification of the Tencent-cloud signing helper and the hunyuan streaming
chat-completion adapter.  The definitions below are direct shallow embeddings
of the Python sources:

  * `get_authorization_header` embeds
    `api/core/tools/provider/builtin/tencent_cloud/_tencent_cloud_base.py`
    (class `SignatureBuilder`), parametrised over the SHA-256 compression
    primitive (an external library call in the source).
  * `process_response_sse`, `handle_stream_chat_response`,
    `convert_prompt_messages_to_dicts` and `invokeModel` embed
    `api/core/model_runtime/model_providers/hunyuan_inside/llm/llm.py`
    (class `HunyuanLargeLanguageModel`), parametrised over `json.loads`
    (an external library call in the source).
-/

/-- A JSON value, the shape produced by the external `json.loads`. -/
inductive JValue where
  | null
  | bool (b : Bool)
  | num (n : Int)
  | str (s : String)
  | arr (elems : List JValue)
  | obj (fields : List (String × JValue))
deriving Repr

/-- First-match lookup in an association list, mirroring a Python `dict` read
(keys of a decoded JSON object are unique, so first match is the match). -/
def lookupField : List (String × JValue) → String → Option JValue
  | [], _ => none
  | (k, v) :: rest, key => if k = key then some v else lookupField rest key

/-- `d.get(key)` on a decoded JSON object: `none` when the value is not an
object or the key is absent. -/
def JValue.getField : JValue → String → Option JValue
  | .obj fs, key => lookupField fs key
  | _, _ => none

/-- `d.get(key, default)` on a decoded JSON object. -/
def jGetD (o : JValue) (k : String) (d : JValue) : JValue :=
  (o.getField k).getD d

/-- `d.get(key, default)` where the use site expects a string value. -/
def jStrD (o : JValue) (k : String) (d : String) : String :=
  match o.getField k with
  | some (.str s) => s
  | _ => d

/-- `d.get(key, default)` where the use site expects an integer value. -/
def jIntD (o : JValue) (k : String) (d : Int) : Int :=
  match o.getField k with
  | some (.num n) => n
  | _ => d

mutual

/-- Structural equality of JSON values, mirroring Python `==` on decoded
values (used by the aggregator to compare tool-call ids). -/
def JValue.beq : JValue → JValue → Bool
  | .null, .null => true
  | .bool a, .bool b => a == b
  | .num a, .num b => a == b
  | .str a, .str b => a == b
  | .arr xs, .arr ys => beqArr xs ys
  | .obj xs, .obj ys => beqObj xs ys
  | _, _ => false

/-- Elementwise equality of JSON arrays. -/
def beqArr : List JValue → List JValue → Bool
  | [], [] => true
  | x :: xs, y :: ys => JValue.beq x y && beqArr xs ys
  | _, _ => false

/-- Entrywise equality of JSON objects (field order included, as for the
association lists `json.loads` produces from unique-key objects). -/
def beqObj : List (String × JValue) → List (String × JValue) → Bool
  | [], [] => true
  | (k, v) :: xs, (l, w) :: ys => k == l && JValue.beq v w && beqObj xs ys
  | _, _ => false

end

/-- `s.endswith(post)`, computed over the character lists. -/
def strEndsWith (s post : String) : Bool :=
  post.toList.isSuffixOf s.toList

/-- One SSE event, the mutable dict `e` of `_process_response_sse`: a field is
`none` exactly when the corresponding key was never written. -/
structure SseEvent where
  data : Option String := none
  event : Option String := none
  id : Option String := none
  retry : Option Int := none
deriving DecidableEq, Repr

/-- `line[:idx]` / `line[idx+1:]` around the first colon, with Python's
`str.find` convention: when there is no colon, `find` returns `-1`, so the
key is `line[:-1]` (the line without its last character) and the value is
`line[0:]` (the whole line). -/
def splitLine (line : String) : String × String :=
  match line.toList.findIdx? (· == ':') with
  | some i => ((line.toList.take i).asString, (line.toList.drop (i + 1)).asString)
  | none => (line.toList.dropLast.asString, line)

/-- Python's `int(str)` for decimal input: leading and trailing whitespace is
stripped, an optional sign is allowed, then one or more ASCII digits must
follow; `none` stands for the `ValueError` the call raises on anything else
(digit-grouping underscores and non-ASCII digits are treated as malformed
here). -/
def pyInt (s : String) : Option Int :=
  let stripped :=
    ((s.toList.dropWhile Char.isWhitespace).reverse.dropWhile Char.isWhitespace).reverse
  let sd : Int × List Char :=
    match stripped with
    | '+' :: rest => (1, rest)
    | '-' :: rest => (-1, rest)
    | cs => (1, cs)
  if sd.2.isEmpty = false && sd.2.all Char.isDigit then
    some (sd.1 * Int.ofNat (sd.2.foldl (fun acc c => acc * 10 + (c.toNat - 48)) 0))
  else none

/-- The per-line update of the accumulator event in `_process_response_sse`
(the body of the loop for a non-blank line): comment lines are skipped, `data`
values accumulate joined by a newline, `event`/`id` overwrite, and `retry` is
parsed with `int(val)` — a malformed value makes the whole parse raise
`ValueError`, modelled as the error case. -/
def updateEvent (e : SseEvent) (line : String) : Except String SseEvent :=
  if line.toList.head? = some ':' then .ok e
  else
    let kv := splitLine line
    if kv.1 = "data" then
      match e.data with
      | none => .ok { e with data := some kv.2 }
      | some old => .ok { e with data := some (old ++ "\n" ++ kv.2) }
    else if kv.1 = "event" then .ok { e with event := some kv.2 }
    else if kv.1 = "id" then .ok { e with id := some kv.2 }
    else if kv.1 = "retry" then
      match pyInt kv.2 with
      | some n => .ok { e with retry := some n }
      | none => .error ("invalid literal for int() with base 10: " ++ kv.2)
    else .ok e

/-- The loop of `_process_response_sse` with the accumulator made explicit:
a blank line yields the accumulator and resets it, any other line updates it.
The events yielded before a `ValueError` on a `retry` value are kept and the
error is reported beside them (the generator raises mid-iteration); an
accumulator still open when the lines run out is dropped. -/
def sseLoop : SseEvent → List String → List SseEvent × Option String
  | _, [] => ([], none)
  | e, line :: rest =>
      if line = "" then
        let r := sseLoop {} rest
        (e :: r.1, r.2)
      else
        match updateEvent e line with
        | .ok e2 => sseLoop e2 rest
        | .error msg => ([], some msg)

/-- `_process_response_sse`: the full (already UTF-8 decoded) line sequence of
the response body turned into the sequence of SSE events it yields, together
with the `ValueError` that aborted the parse, if any. -/
def process_response_sse (lines : List String) : List SseEvent × Option String :=
  sseLoop {} lines

/-- UTF-8 bytes of a string, as natural numbers (`.encode("utf-8")`). -/
def strBytes (s : String) : List Nat :=
  s.toUTF8.toList.map (fun b => b.toNat)

/-- One lowercase hexadecimal digit. -/
def hexChar (n : Nat) : Char :=
  if n < 10 then Char.ofNat (48 + n) else Char.ofNat (87 + n)

/-- Lowercase hexadecimal rendering of a byte sequence (`.hexdigest()`). -/
def hexDigest (bs : List Nat) : String :=
  String.mk (List.flatten (bs.map (fun b => [hexChar (b / 16 % 16), hexChar (b % 16)])))

/-- HMAC-SHA256 (what `hmac.new(key, msg, hashlib.sha256)` computes), written
over an abstract SHA-256 digest function `sha256` on byte sequences; the block
size of SHA-256 is 64 bytes. -/
def hmacSha256 (sha256 : List Nat → List Nat) (key msg : List Nat) : List Nat :=
  let k := if key.length > 64 then sha256 key else key
  let k0 := k ++ List.replicate (64 - k.length) 0
  let ipad := k0.map (fun b => b ^^^ 0x36)
  let opad := k0.map (fun b => b ^^^ 0x5c)
  sha256 (opad ++ sha256 (ipad ++ msg))

/-- `SignatureBuilder._sign(key, msg)`: HMAC-SHA256 of the UTF-8 bytes of
`msg` under `key`, returning the raw digest bytes. -/
def signatureBuilderSign (sha256 : List Nat → List Nat) (key : List Nat) (msg : String) :
    List Nat :=
  hmacSha256 sha256 key (strBytes msg)

/-- Proleptic-Gregorian civil date `(year, month, day)` of a day count from
the epoch 1970-01-01 (what `datetime.utcfromtimestamp` computes for the date
part, for non-negative timestamps). -/
def civilFromDays (days : Nat) : Nat × Nat × Nat :=
  let z := days + 719468
  let era := z / 146097
  let doe := z % 146097
  let yoe := (doe - doe / 1460 + doe / 36524 - doe / 146096) / 365
  let y := yoe + era * 400
  let doy := doe - (365 * yoe + yoe / 4 - yoe / 100)
  let mp := (5 * doy + 2) / 153
  let d := doy - (153 * mp + 2) / 5 + 1
  let m := if mp < 10 then mp + 3 else mp - 9
  (if m ≤ 2 then y + 1 else y, m, d)

/-- Decimal rendering of a natural number zero-padded to `width` digits. -/
def padNum (width : Nat) (n : Nat) : String :=
  let s := toString n
  String.mk (List.replicate (width - s.length) '0') ++ s

/-- `datetime.utcfromtimestamp(timestamp).strftime("%Y-%m-%d")` for a
non-negative Unix timestamp in seconds. -/
def formatDate (timestamp : Nat) : String :=
  let ymd := civilFromDays (timestamp / 86400)
  padNum 4 ymd.1 ++ "-" ++ padNum 2 ymd.2.1 ++ "-" ++ padNum 2 ymd.2.2

/-- `SignatureBuilder.get_authorization_header(timestamp, host, action,
payload)` with the builder state (`service`, `secret_id`, `secret_key`,
`algorithm = "TC3-HMAC-SHA256"`) passed explicitly and the SHA-256 digest
primitive abstract. -/
def get_authorization_header (sha256 : List Nat → List Nat)
    (service secret_id secret_key : String)
    (timestamp : Nat) (host action payload : String) : String :=
  let algorithm := "TC3-HMAC-SHA256"
  let date := formatDate timestamp
  let http_request_method := "POST"
  let canonical_uri := "/"
  let canonical_querystring := ""
  let ct := "application/json; charset=utf-8"
  let canonical_headers :=
    "content-type:" ++ ct ++ "\nhost:" ++ host ++ "\nx-tc-action:" ++ action.toLower ++ "\n"
  let signed_headers := "content-type;host;x-tc-action"
  let hashed_request_payload := hexDigest (sha256 (strBytes payload))
  let canonical_request :=
    http_request_method ++ "\n" ++ canonical_uri ++ "\n" ++ canonical_querystring ++ "\n" ++
      canonical_headers ++ "\n" ++ signed_headers ++ "\n" ++ hashed_request_payload
  let credential_scope := date ++ "/" ++ service ++ "/" ++ "tc3_request"
  let hashed_canonical_request := hexDigest (sha256 (strBytes canonical_request))
  let string_to_sign :=
    algorithm ++ "\n" ++ toString timestamp ++ "\n" ++ credential_scope ++ "\n" ++
      hashed_canonical_request
  let secret_date := signatureBuilderSign sha256 (strBytes ("TC3" ++ secret_key)) date
  let secret_service := signatureBuilderSign sha256 secret_date service
  let secret_signing := signatureBuilderSign sha256 secret_service "tc3_request"
  let signature := hexDigest (hmacSha256 sha256 secret_signing (strBytes string_to_sign))
  algorithm ++ " " ++ "Credential=" ++ secret_id ++ "/" ++ credential_scope ++ ", " ++
    "SignedHeaders=" ++ signed_headers ++ ", " ++ "Signature=" ++ signature

/-- `AssistantPromptMessage.ToolCall.ToolCallFunction`: accumulated function
name and arguments of one tool call. -/
structure ToolCallFunction where
  name : String
  arguments : String
deriving Repr

/-- `AssistantPromptMessage.ToolCall`: the id is kept as the decoded JSON
value `response_tool_call.get("id", 0)` (default `0` when absent). -/
structure ToolCall where
  id : JValue
  type : String
  function : ToolCallFunction
deriving Repr

/-- `_extract_response_tool_calls`: each fragment dict becomes a tool call
with `type = "function"` and empty-string defaults for missing name or
arguments. -/
def extract_response_tool_calls (response_tool_calls : List JValue) : List ToolCall :=
  response_tool_calls.map (fun rtc =>
    let response_function := jGetD rtc "function" (.obj [])
    { id := jGetD rtc "id" (.num 0)
      type := "function"
      function :=
        { name := jStrD response_function "name" ""
          arguments := jStrD response_function "arguments" "" } })

/-- The mutable aggregation state of `_handle_stream_chat_response`: the
currently open tool call (`tool_call`, `None` in the source when closed) and
the list of completed tool calls (`tool_calls`). -/
structure AggState where
  tool_call : Option ToolCall := none
  tool_calls : List ToolCall := []
deriving Repr

/-- Lines 219-232 of the handler, run when the delta carries a `tool_calls`
key with a non-`null` value: the first new fragment either opens a call,
closes the open call (different id) or is concatenated onto it (same id);
afterwards an open call whose name and arguments are both non-empty is moved
to the completed list. -/
def mergeStep (st : AggState) (new_tool_calls : List ToolCall) : AggState :=
  let st1 :=
    match new_tool_calls with
    | [] => st
    | new_tool_call :: _ =>
      match st.tool_call with
      | none => { st with tool_call := some new_tool_call }
      | some cur =>
        if JValue.beq cur.id new_tool_call.id = false then
          { tool_call := some new_tool_call, tool_calls := st.tool_calls ++ [cur] }
        else
          let merged : ToolCall :=
            { id := cur.id
              type := cur.type
              function :=
                { name := cur.function.name ++ new_tool_call.function.name
                  arguments := cur.function.arguments ++ new_tool_call.function.arguments } }
          { st with tool_call := some merged }
  match st1.tool_call with
  | some c =>
      if c.function.name.length > 0 && c.function.arguments.length > 0 then
        { tool_call := none, tool_calls := st1.tool_calls ++ [c] }
      else st1
  | none => st1

/-- Lines 217-232 of the handler: `delta.get("tool_calls")` is `None` both
when the key is absent and when its value is JSON `null`; in both cases the
aggregation state is untouched. -/
def applyToolCallDelta (st : AggState) (delta : JValue) : AggState :=
  match delta.getField "tool_calls" with
  | none => st
  | some .null => st
  | some (.arr rtcs) => mergeStep st (extract_response_tool_calls rtcs)
  | some _ => mergeStep st (extract_response_tool_calls [])

/-- The assistant message carried by an emitted chunk. -/
structure AssistantMsg where
  content : String
  tool_calls : List ToolCall
deriving Repr

/-- Token usage, the result of the external `_calc_response_usage`; token
accounting is opaque here, so the usage is represented by the two counts the
handler feeds it. -/
structure LLMUsage where
  prompt_tokens : Int
  completion_tokens : Int
deriving Repr

/-- `LLMResultChunkDelta`: the non-terminal construction leaves `role`,
`usage` and `finish_reason` unset. -/
structure LLMResultChunkDelta where
  index : Nat
  role : Option String := none
  message : AssistantMsg
  usage : Option LLMUsage := none
  finish_reason : Option String := none
deriving Repr

/-- One part of a multi-part user message content. -/
inductive PromptContentPart where
  | text (data : String)
  | image (data : String)
deriving Repr

/-- A user message's content: a plain string or an ordered part list. -/
inductive UserContent where
  | str (s : String)
  | parts (ps : List PromptContentPart)
deriving Repr

/-- A tool call attached to an assistant prompt message
(`AssistantPromptMessage.ToolCall` on the request side, where the id is a
plain string). -/
structure PMToolCall where
  id : String
  type : String
  function : ToolCallFunction
deriving Repr

/-- The generic prompt-message model, a closed sum over the four runtime
classes `_convert_prompt_messages_to_dicts` branches on; `role.value` is
determined by the variant.  An assistant message's content is optional
(`None` in the source). -/
inductive PromptMessage where
  | system (content : String)
  | user (content : UserContent)
  | assistant (content : Option String) (tool_calls : List PMToolCall)
  | tool (content : String) (tool_call_id : String)
deriving Repr

/-- `LLMResultChunk` as yielded by the handler. -/
structure LLMResultChunk where
  model : String
  prompt_messages : List PromptMessage
  delta : LLMResultChunkDelta
deriving Repr

/-- The external `_calc_response_usage` of the base class: token accounting
is opaque, so the usage is the pair of counts the handler passes in. -/
def calc_response_usage (model : String) (prompt_tokens completion_tokens : Int) : LLMUsage :=
  let _ := model
  { prompt_tokens := prompt_tokens, completion_tokens := completion_tokens }

/-- An error that aborts the streaming pipeline: `event["data"]` on a dict
without a `data` key raises `KeyError`, a `json.loads` failure raises a
decode error, and a malformed `retry` value makes the SSE parser raise
`ValueError` while the handler is pulling events from it. -/
inductive StreamErr where
  | keyError (key : String)
  | jsonError (msg : String)
  | valueError (msg : String)
deriving DecidableEq, Repr

/-- `data.get("choices", [])` followed by the emptiness test: a missing or
non-array value yields no choices. -/
def jChoices (data : JValue) : List JValue :=
  match data.getField "choices" with
  | some (.arr xs) => xs
  | _ => []

/-- Lines 208-268 of `_handle_stream_chat_response` for one event whose data
decoded to `data` with first choice `choice`: merge the delta's tool-call
fragments into the state, blank the visible content when the completed list
is non-empty, attach the completed list and reset on `finish_reason ==
"tool_calls"`, and emit a terminal chunk (carrying usage) exactly when the
finish reason is non-empty. -/
def processChoice (model : String) (prompt_messages : List PromptMessage)
    (st : AggState) (index : Nat) (data choice : JValue) :
    AggState × LLMResultChunk :=
  let delta := jGetD choice "delta" (.obj [])
  let message_content := jStrD delta "content" ""
  let finish_reason := jStrD choice "finish_reason" ""
  let usage := jGetD data "usage" (.obj [])
  let prompt_tokens := jIntD usage "prompt_tokens" 0
  let completion_tokens := jIntD usage "completion_tokens" 0
  let st1 := applyToolCallDelta st delta
  let content1 := if st1.tool_calls.length > 0 then "" else message_content
  let apm : AssistantMsg :=
    { content := content1
      tool_calls := if finish_reason = "tool_calls" then st1.tool_calls else [] }
  let st2 : AggState := if finish_reason = "tool_calls" then {} else st1
  if finish_reason.length > 0 then
    ({}, { model := model, prompt_messages := prompt_messages
           delta :=
             { index := index
               role := some (jStrD delta "role" "assistant")
               message := apm
               usage := some (calc_response_usage model prompt_tokens completion_tokens)
               finish_reason := some finish_reason } })
  else
    (st2, { model := model, prompt_messages := prompt_messages
            delta := { index := index, message := apm } })

/-- One iteration of the `for index, event in enumerate(resp)` loop of
`_handle_stream_chat_response`: a missing `data` key raises, a data string
ending in `[DONE]` is skipped, a decode failure raises, an event without
choices is skipped, and otherwise the first choice is processed and a chunk
is emitted. -/
def handleEvent (model : String) (prompt_messages : List PromptMessage)
    (loads : String → Except String JValue)
    (st : AggState) (index : Nat) (event : SseEvent) :
    Except StreamErr (AggState × Option LLMResultChunk) :=
  match event.data with
  | none => .error (.keyError "data")
  | some data_str =>
    if strEndsWith data_str ("[DONE]") then .ok (st, none)
    else
      match loads data_str with
      | .error msg => .error (.jsonError msg)
      | .ok data =>
        match jChoices data with
        | [] => .ok (st, none)
        | choice :: _ =>
          let r := processChoice model prompt_messages st index data choice
          .ok (r.1, some r.2)

/-- The whole loop of `_handle_stream_chat_response`, threading the
aggregation state and the enumeration index: the chunks yielded before an
error are kept, and the error that aborted the generator is reported beside
them. -/
def goStream (model : String) (prompt_messages : List PromptMessage)
    (loads : String → Except String JValue) :
    AggState → Nat → List SseEvent → List LLMResultChunk × Option StreamErr
  | _, _, [] => ([], none)
  | st, index, event :: rest =>
      match handleEvent model prompt_messages loads st index event with
      | .error e => ([], some e)
      | .ok (st', none) => goStream model prompt_messages loads st' (index + 1) rest
      | .ok (st', some c) =>
          let r := goStream model prompt_messages loads st' (index + 1) rest
          (c :: r.1, r.2)

/-- `_handle_stream_chat_response`, started from the initial state
`tool_call = None`, `tool_calls = []` and index `0`. -/
def handle_stream_chat_response (model : String) (prompt_messages : List PromptMessage)
    (loads : String → Except String JValue) (events : List SseEvent) :
    List LLMResultChunk × Option StreamErr :=
  goStream model prompt_messages loads {} 0 events

/-- JSON escaping of one character as `json.dumps` performs it (with
`ensure_ascii=False`). -/
def jsonEscapeChar (c : Char) : List Char :=
  if c = '"' then ['\\', '"']
  else if c = '\\' then ['\\', '\\']
  else if c = '\n' then ['\\', 'n']
  else if c = '\t' then ['\\', 't']
  else if c = '\r' then ['\\', 'r']
  else if c.toNat = 8 then ['\\', 'b']
  else if c.toNat = 12 then ['\\', 'f']
  else if c.toNat < 32 then
    ['\\', 'u', '0', '0', hexChar (c.toNat / 16 % 16), hexChar (c.toNat % 16)]
  else [c]

/-- A JSON string literal for `s`, as `json.dumps` renders it. -/
def jsonDumpsStr (s : String) : String :=
  "\"" ++ String.mk (List.flatten (s.toList.map jsonEscapeChar)) ++ "\""

/-- `json.dumps({"result": content}, ensure_ascii=False)` for a string
`content` (the tool-message wrapping in the mapper). -/
def jsonDumpsResult (content : String) : String :=
  "\x7b\"result\": " ++ jsonDumpsStr content ++ "\x7d"

/-- An optional string as the corresponding Python dict value (`None` becomes
JSON `null`). -/
def optStr : Option String → JValue
  | none => .null
  | some s => .str s

/-- One multi-part content entry as the mapper serialises it. -/
def partToDict : PromptContentPart → JValue
  | .text d => .obj [("Type", .str "text"), ("Text", .str d)]
  | .image d => .obj [("Type", .str "image_url"), ("ImageUrl", .obj [("Url", .str d)])]

/-- `_convert_prompt_messages_to_dicts`: each prompt message becomes the wire
dict the source builds for it, in order.  An assistant message with tool
calls gets the placeholder content `" "` and its serialised tool calls, whose
`Arguments` are forwarded exactly when the source arguments string is empty
and otherwise replaced by the literal two-character brace string. -/
def convert_prompt_messages_to_dicts : List PromptMessage → List JValue
  | [] => []
  | message :: rest =>
    (match message with
     | .assistant content tool_calls =>
       if tool_calls.length > 0 then
         .obj [("Role", .str "assistant"), ("Content", .str " "),
               ("ToolCalls", .arr (tool_calls.map (fun tc =>
                  .obj [("Id", .str tc.id), ("Type", .str tc.type),
                        ("Function", .obj [("Name", .str tc.function.name),
                          ("Arguments", .str
                            (if tc.function.arguments = "" then tc.function.arguments
                             else "\x7b\x7d"))])])))]
       else
         .obj [("Role", .str "assistant"), ("Content", optStr content)]
     | .tool content tool_call_id =>
         .obj [("Role", .str "tool"), ("Content", .str (jsonDumpsResult content)),
               ("ToolCallId", .str tool_call_id)]
     | .user (.str s) => .obj [("Role", .str "user"), ("Content", .str s)]
     | .user (.parts ps) => .obj [("Role", .str "user"), ("Contents", .arr (ps.map partToDict))]
     | .system content => .obj [("Role", .str "system"), ("Content", .str content)]) ::
    convert_prompt_messages_to_dicts rest

/-- The part of an HTTP response `_invoke` looks at: the status code, the
body text (used in the failure message) and the body's line sequence (fed to
the SSE parser on the streaming path). -/
structure HttpResponse where
  status_code : Nat
  text : String
  lines : List String

/-- The successful outcome of `_invoke`: a streamed chunk sequence (with the
error, if any, that aborted the generator) or the single non-streaming
result, whose decoding is out of scope here. -/
inductive InvokeResult where
  | streamed (chunks : List LLMResultChunk) (streamErr : Option StreamErr)
  | single

/-- `_invoke` from the point the HTTP response is available: the request body
has been built from the prompt messages, and a status other than 200 raises
before anything of the body is decoded; otherwise the body is routed through
the SSE parser and the stream handler (streaming) or decoded in one piece
(non-streaming). -/
def invokeModel (loads : String → Except String JValue) (model : String)
    (prompt_messages : List PromptMessage) (stream : Bool)
    (response : HttpResponse) : Except String InvokeResult :=
  let _messages_dict := convert_prompt_messages_to_dicts prompt_messages
  if response.status_code ≠ 200 then
    .error ("Failed to access LLM API, status code: " ++ toString response.status_code ++
      ", message: " ++ response.text)
  else if stream then
    let p := process_response_sse response.lines
    let r := handle_stream_chat_response model prompt_messages loads p.1
    .ok (.streamed r.1
      (match r.2 with
       | some e => some e
       | none => p.2.map (fun m => StreamErr.valueError m)))
  else .ok .single

/-- A tool-call fragment as it appears decoded inside `delta.tool_calls`. -/
def mkFragJson (id name args : String) : JValue :=
  .obj [("id", .str id),
        ("function", .obj [("name", .str name), ("arguments", .str args)])]

/-- Decode table standing in for `json.loads` on the three-event tool-call
stream: a fragment carrying half a function name, a fragment carrying the
rest plus the arguments, then a bare `finish_reason:"tool_calls"` event. -/
def loadsToolCallStream : String → Except String JValue := fun s =>
  if s = "d1" then
    .ok (.obj [("choices", .arr [.obj [("delta",
      .obj [("tool_calls", .arr [mkFragJson "1" "get_" ""])])]])])
  else if s = "d2" then
    .ok (.obj [("choices", .arr [.obj [("delta",
      .obj [("tool_calls", .arr [mkFragJson "1" "weather" "\x7b\"c\":\"sf\"\x7d"])])]])])
  else if s = "d3" then
    .ok (.obj [("choices", .arr [.obj [("finish_reason", .str "tool_calls")]])])
  else .error "unexpected input"

/-- Decode table for a single event whose delta carries visible content
together with an incomplete tool-call fragment. -/
def loadsPendingContent : String → Except String JValue := fun s =>
  if s = "dp" then
    .ok (.obj [("choices", .arr [.obj [("delta",
      .obj [("content", .str "hello"),
            ("tool_calls", .arr [mkFragJson "1" "get_" ""])])]])])
  else .error "unexpected input"

/-- A decode table that is never consulted. -/
def loadsUnused : String → Except String JValue := fun _ => .error "not consulted"

/-! ## Helper lemmas about the SSE parser -/

/-- `findIdx?` over a colon-free prefix followed by a colon finds exactly the
prefix length, for any start index. -/
theorem findIdx_colon_append (l1 l2 : List Char) (h : ':' ∉ l1) :
    ∀ i, List.findIdx? (· == ':') (l1 ++ ':' :: l2) i = some (i + l1.length) := by
  induction l1 with
  | nil => intro i; simp [List.findIdx?_cons]
  | cons c cs ih =>
      intro i
      have hc : c ≠ ':' := fun hc => h (hc ▸ List.mem_cons_self c cs)
      have hcs : ':' ∉ cs := fun hm => h (List.mem_cons_of_mem c hm)
      simp only [List.cons_append, List.findIdx?_cons]
      have : (c == ':') = false := by simp [hc]
      rw [this]
      simp only [if_false, ih hcs (i + 1)]
      simp
      omega

/-- When the parser loop raises no `ValueError`, it emits one event per blank
line. -/
theorem sseLoop_length (lines : List String) :
    ∀ e, (sseLoop e lines).2 = none →
      (sseLoop e lines).1.length = lines.count "" := by
  induction lines with
  | nil => intro e _; simp [sseLoop]
  | cons l rest ih =>
      intro e herr
      by_cases h : l = ""
      · subst h
        rw [sseLoop] at herr ⊢
        simp only [if_true]
        simp only [List.count_cons, if_true]
        simp only at herr
        simp [ih {} herr]
      · rw [sseLoop] at herr ⊢
        simp only [h, if_false] at herr ⊢
        cases hu : updateEvent e l with
        | ok e2 =>
            rw [hu] at herr
            dsimp only at herr ⊢
            rw [ih e2 herr]
            simp [List.count_cons, h]
        | error msg => rw [hu] at herr; simp at herr

/-- A line suffix without any blank line produces no event, whatever the
accumulator holds and whether or not the suffix raises. -/
theorem sseLoop_no_blank (ls : List String) (h : "" ∉ ls) :
    ∀ e, (sseLoop e ls).1 = [] := by
  induction ls with
  | nil => intro e; simp [sseLoop]
  | cons l rest ih =>
      intro e
      have hl : l ≠ "" := fun hl => h (hl ▸ List.mem_cons_self l rest)
      have hrest : "" ∉ rest := fun hm => h (List.mem_cons_of_mem l hm)
      rw [sseLoop]
      simp only [hl, if_false]
      cases hu : updateEvent e l with
      | ok e2 => simp [ih hrest]
      | error msg => simp

/-- Appending a blank-free suffix to the line stream does not change the
emitted events. -/
theorem sseLoop_append_no_blank (ls1 : List String) :
    ∀ (e : SseEvent) (ls2 : List String), "" ∉ ls2 →
      (sseLoop e (ls1 ++ ls2)).1 = (sseLoop e ls1).1 := by
  induction ls1 with
  | nil => intro e ls2 h; simpa [sseLoop] using sseLoop_no_blank ls2 h e
  | cons l rest ih =>
      intro e ls2 h
      by_cases hl : l = ""
      · subst hl; simp [sseLoop, ih _ ls2 h]
      · rw [List.cons_append, sseLoop, sseLoop]
        simp only [hl, if_false]
        cases hu : updateEvent e l with
        | ok e2 => simp [ih _ ls2 h]
        | error msg => simp

/-! ## Claim theorems about the SSE parser -/

/-- Claim C4, counterexample: the parser does not trim the single leading
space after the colon.  On the claimed input the two events carry a leading
space in every data value, so the output differs from the claimed one. -/
theorem C4_sse_trim_counterexample :
    process_response_sse
        ["data: \x7b\"a\":1\x7d", "", "data: line1", "data: line2", ""] =
      ([⟨some (" \x7b\"a\":1\x7d"), none, none, none⟩,
        ⟨some (" line1\n line2"), none, none, none⟩], none) ∧
    process_response_sse
        ["data: \x7b\"a\":1\x7d", "", "data: line1", "data: line2", ""] ≠
      ([⟨some ("\x7b\"a\":1\x7d"), none, none, none⟩,
        ⟨some ("line1\nline2"), none, none, none⟩], none) := by
  exact ⟨by decide, by decide⟩

/-- Claim C4, amended: each non-comment, non-blank line containing a colon is
split at the first colon into key and value, the value being everything after
the colon with no trimming of a leading space; multiple data fields of one
event are joined with a newline; the example input therefore yields the two
events with the leading space preserved. -/
theorem C4_sse_split_amended :
    (∀ pre post : String, ':' ∉ pre.toList →
        splitLine (pre ++ ":" ++ post) = (pre, post)) ∧
    process_response_sse
        ["data: \x7b\"a\":1\x7d", "", "data: line1", "data: line2", ""] =
      ([⟨some (" \x7b\"a\":1\x7d"), none, none, none⟩,
        ⟨some (" line1\n line2"), none, none, none⟩], none) := by
  constructor
  · intro pre post h
    have hl : (pre ++ ":" ++ post).toList = pre.toList ++ ':' :: post.toList := by
      show (pre.toList ++ [':']) ++ post.toList = pre.toList ++ ':' :: post.toList
      simp
    rw [splitLine, hl, findIdx_colon_append _ _ h 0]
    simp only [Nat.zero_add]
    rw [List.take_left' rfl]
    have hdrop : (pre.toList ++ ':' :: post.toList).drop (pre.toList.length + 1) =
        post.toList := by
      have : pre.toList ++ ':' :: post.toList = (pre.toList ++ [':']) ++ post.toList := by
        simp
      rw [this, List.drop_left']
      simp
    rw [hdrop]
    simp only [Prod.mk.injEq]
    exact ⟨String.asString_toList pre, String.asString_toList post⟩
  · decide

/-- Claim C4, amended, witness: the split lemma applied to the key `data` and
a value with a leading space. -/
theorem C4_sse_split_amended_witness :
    splitLine ("data" ++ ":" ++ " x") = ("data", " x") :=
  C4_sse_split_amended.1 "data" " x" (by decide)

/-- Claim C5, counterexample: on the input `["retry: x", "", "data: a"]`
(which ends without a trailing blank line) the source raises `ValueError` at
`int(" x")` before yielding anything, so zero events are emitted although one
blank line is encountered — the universal "events = blank lines" equality
fails. -/
theorem C5_retry_abort_counterexample :
    process_response_sse ["retry: x", "", "data: a"] =
      ([], some ("invalid literal for int() with base 10:  x")) ∧
    (process_response_sse ["retry: x", "", "data: a"]).1.length ≠
      List.count "" ["retry: x", "", "data: a"] := by
  exact ⟨by decide, by decide⟩

/-- Claim C5, amended: provided the parse raises no `ValueError` (every
`retry` value encountered is accepted by `int()`), the parser emits exactly
one event per blank line; and unconditionally, fields accumulated after the
last blank line (a stream ending without a trailing blank line) are dropped:
appending any blank-free tail leaves the emitted events unchanged. -/
theorem C5_sse_termination_amended :
    (∀ lines : List String, (process_response_sse lines).2 = none →
        (process_response_sse lines).1.length = lines.count "") ∧
    (∀ ls1 ls2 : List String, "" ∉ ls2 →
        (process_response_sse (ls1 ++ ls2)).1 = (process_response_sse ls1).1) := by
  constructor
  · intro lines h; exact sseLoop_length lines {} h
  · intro ls1 ls2 h; exact sseLoop_append_no_blank ls1 {} ls2 h

/-- Claim C5, amended, witness: an error-free stream whose last event is not
terminated by a blank line drops that event; the blank-line count gives the
event count. -/
theorem C5_sse_termination_amended_witness :
    (process_response_sse (["data: a", ""] ++ ["data: b"])).1 =
      (process_response_sse ["data: a", ""]).1 ∧
    (process_response_sse ["data: a", "", "data: b"]).1.length =
      List.count "" ["data: a", "", "data: b"] := by
  exact ⟨C5_sse_termination_amended.2 ["data: a", ""] ["data: b"] (by decide),
         C5_sse_termination_amended.1 ["data: a", "", "data: b"] (by decide)⟩

/-- Claim C10: the parser can emit events that carry no data field (two
consecutive blank lines, or an event whose only field is `event`), and the
stream handler fails on any such event with the lookup error for the missing
`data` key rather than skipping it; fed one such event, the whole handler run
produces no chunk and stops with that error. -/
theorem C10_dataless_event_keyerror :
    process_response_sse ["", ""] =
      ([⟨none, none, none, none⟩, ⟨none, none, none, none⟩], none) ∧
    process_response_sse ["event: ping", ""] =
      ([⟨none, some (" ping"), none, none⟩], none) ∧
    (∀ (model : String) (prompt_messages : List PromptMessage)
        (loads : String → Except String JValue) (st : AggState) (index : Nat)
        (event : SseEvent), event.data = none →
        handleEvent model prompt_messages loads st index event =
          .error (.keyError "data")) ∧
    handle_stream_chat_response "m" [] loadsUnused [⟨none, none, none, none⟩] =
      ([], some (.keyError "data")) := by
  refine ⟨by decide, by decide, ?_, by rfl⟩
  intro model prompt_messages loads st index event h
  rw [handleEvent, h]

/-- Claim C10, witness: the key-error clause applied to the first event of the
double-blank stream. -/
theorem C10_dataless_event_keyerror_witness :
    handleEvent "m" [] loadsUnused {} 0 ⟨none, none, none, none⟩ =
      .error (.keyError "data") :=
  C10_dataless_event_keyerror.2.2.1 "m" [] loadsUnused {} 0 ⟨none, none, none, none⟩ rfl

/-! ## Claim theorem about the signer -/

/-- Reassociation of the canonical-request assembly. -/
theorem canonicalRequestAssoc (host act hp : String) :
    "POST" ++ "\n" ++ "/" ++ "\n" ++ "" ++ "\n" ++
        ("content-type:" ++ "application/json; charset=utf-8" ++ "\nhost:" ++ host ++
          "\nx-tc-action:" ++ act ++ "\n") ++ "\n" ++ "content-type;host;x-tc-action" ++
        "\n" ++ hp =
      "POST\n/\n\ncontent-type:application/json; charset=utf-8\nhost:" ++ host ++
        "\nx-tc-action:" ++ act ++ "\n\ncontent-type;host;x-tc-action\n" ++ hp := by
  have h1 : ("POST\n/\n\ncontent-type:application/json; charset=utf-8\nhost:" : String) =
      "POST" ++ "\n" ++ "/" ++ "\n" ++ "" ++ "\n" ++ "content-type:" ++
        "application/json; charset=utf-8" ++ "\nhost:" := rfl
  have h2 : ("\n\ncontent-type;host;x-tc-action\n" : String) =
      "\n" ++ "\n" ++ "content-type;host;x-tc-action" ++ "\n" := rfl
  rw [h1, h2]
  simp only [String.append_assoc]

/-- Reassociation of the string-to-sign assembly. -/
theorem stringToSignAssoc (ts dt sv hc : String) :
    "TC3-HMAC-SHA256" ++ "\n" ++ ts ++ "\n" ++ (dt ++ "/" ++ sv ++ "/" ++ "tc3_request") ++
        "\n" ++ hc =
      "TC3-HMAC-SHA256\n" ++ ts ++ "\n" ++ dt ++ "/" ++ sv ++ "/tc3_request\n" ++ hc := by
  have h1 : ("TC3-HMAC-SHA256\n" : String) = "TC3-HMAC-SHA256" ++ "\n" := rfl
  have h2 : ("/tc3_request\n" : String) = "/" ++ "tc3_request" ++ "\n" := rfl
  rw [h1, h2]
  simp only [String.append_assoc]

/-- Reassociation of the final authorization-header assembly. -/
theorem headerAssoc (sid dt sv sig : String) :
    "TC3-HMAC-SHA256" ++ " " ++ "Credential=" ++ sid ++ "/" ++
        (dt ++ "/" ++ sv ++ "/" ++ "tc3_request") ++ ", " ++ "SignedHeaders=" ++
        "content-type;host;x-tc-action" ++ ", " ++ "Signature=" ++ sig =
      "TC3-HMAC-SHA256 Credential=" ++ sid ++ "/" ++ dt ++ "/" ++ sv ++
        "/tc3_request, SignedHeaders=content-type;host;x-tc-action, Signature=" ++ sig := by
  have h1 : ("TC3-HMAC-SHA256 Credential=" : String) =
      "TC3-HMAC-SHA256" ++ " " ++ "Credential=" := rfl
  have h2 :
      ("/tc3_request, SignedHeaders=content-type;host;x-tc-action, Signature=" : String) =
      "/" ++ "tc3_request" ++ ", " ++ "SignedHeaders=" ++ "content-type;host;x-tc-action" ++
        ", " ++ "Signature=" := rfl
  rw [h1, h2]
  simp only [String.append_assoc]

/-- Claim C1: for a fixed tuple (timestamp, host, action, payload) and fixed
credentials (secretId, secretKey, service) the header is the same on every
call, and it equals
`<algorithm> Credential=<secretId>/<date>/<service>/tc3_request,
SignedHeaders=content-type;host;x-tc-action, Signature=<signature>` where the
signature is the hex HMAC-SHA256 of the string-to-sign under the key chain
`kDate = HMAC("TC3"+secretKey, date)`, `kService = HMAC(kDate, service)`,
`kSigning = HMAC(kService, "tc3_request")`, the canonical request being built
from method POST, URI `/`, empty query, the three canonical headers, the
signed-headers list and the hex SHA-256 of the payload. -/
theorem C1_signer_header_format (sha256 : List Nat → List Nat)
    (service secret_id secret_key : String) (timestamp : Nat)
    (host action payload : String) :
    get_authorization_header sha256 service secret_id secret_key timestamp host action payload
      = get_authorization_header sha256 service secret_id secret_key timestamp host action
          payload ∧
    get_authorization_header sha256 service secret_id secret_key timestamp host action payload
      = (let date := formatDate timestamp
         let canonicalRequest :=
           "POST\n/\n\ncontent-type:application/json; charset=utf-8\nhost:" ++ host ++
             "\nx-tc-action:" ++ action.toLower ++ "\n\ncontent-type;host;x-tc-action\n" ++
             hexDigest (sha256 (strBytes payload))
         let stringToSign :=
           "TC3-HMAC-SHA256\n" ++ toString timestamp ++ "\n" ++ date ++ "/" ++ service ++
             "/tc3_request\n" ++ hexDigest (sha256 (strBytes canonicalRequest))
         let kDate := hmacSha256 sha256 (strBytes ("TC3" ++ secret_key)) (strBytes date)
         let kService := hmacSha256 sha256 kDate (strBytes service)
         let kSigning := hmacSha256 sha256 kService (strBytes ("tc3_request"))
         let signature := hexDigest (hmacSha256 sha256 kSigning (strBytes stringToSign))
         "TC3-HMAC-SHA256 Credential=" ++ secret_id ++ "/" ++ date ++ "/" ++ service ++
           "/tc3_request, SignedHeaders=content-type;host;x-tc-action, Signature=" ++
           signature) := by
  refine ⟨rfl, ?_⟩
  show get_authorization_header sha256 service secret_id secret_key timestamp host action
      payload = _
  simp only [get_authorization_header, signatureBuilderSign]
  rw [canonicalRequestAssoc host action.toLower (hexDigest (sha256 (strBytes payload)))]
  rw [stringToSignAssoc]
  rw [headerAssoc]

/-! ## Claim theorems about the stream aggregator -/

/-- Claim C2: a fragment with the id of the open tool call has its function
name and arguments concatenated onto it; a fragment with a different id
closes the open call and opens the new one; a call moves to the completed
list exactly when both its accumulated name and arguments are non-empty; and
the concrete split-fragment stream ends in a terminal chunk whose tool-call
list is exactly the single reassembled call with empty message content. -/
theorem C2_toolcall_reassembly :
    (∀ (s ty1 ty2 n1 a1 n2 a2 : String) (tcs : List ToolCall),
        mergeStep ⟨some ⟨.str s, ty1, ⟨n1, a1⟩⟩, tcs⟩ [⟨.str s, ty2, ⟨n2, a2⟩⟩] =
          (if (n1 ++ n2).length > 0 && (a1 ++ a2).length > 0 then
            ⟨none, tcs ++ [⟨.str s, ty1, ⟨n1 ++ n2, a1 ++ a2⟩⟩]⟩
          else ⟨some ⟨.str s, ty1, ⟨n1 ++ n2, a1 ++ a2⟩⟩, tcs⟩)) ∧
    (∀ (s t ty1 ty2 n1 a1 n2 a2 : String) (tcs : List ToolCall), s ≠ t →
        mergeStep ⟨some ⟨.str s, ty1, ⟨n1, a1⟩⟩, tcs⟩ [⟨.str t, ty2, ⟨n2, a2⟩⟩] =
          (if n2.length > 0 && a2.length > 0 then
            ⟨none, tcs ++ [⟨.str s, ty1, ⟨n1, a1⟩⟩, ⟨.str t, ty2, ⟨n2, a2⟩⟩]⟩
          else ⟨some ⟨.str t, ty2, ⟨n2, a2⟩⟩, tcs ++ [⟨.str s, ty1, ⟨n1, a1⟩⟩]⟩)) ∧
    handle_stream_chat_response "m" [] loadsToolCallStream
        [⟨some ("d1"), none, none, none⟩, ⟨some ("d2"), none, none, none⟩,
         ⟨some ("d3"), none, none, none⟩] =
      ([⟨"m", [], ⟨0, none, ⟨"", []⟩, none, none⟩⟩,
        ⟨"m", [], ⟨1, none, ⟨"", []⟩, none, none⟩⟩,
        ⟨"m", [], ⟨2, some ("assistant"),
          ⟨"", [⟨.str "1", "function", ⟨"get_weather", "\x7b\"c\":\"sf\"\x7d"⟩⟩]⟩,
          some ⟨0, 0⟩, some ("tool_calls")⟩⟩], none) := by
  refine ⟨?_, ?_, rfl⟩
  · intro s ty1 ty2 n1 a1 n2 a2 tcs
    simp [mergeStep, JValue.beq]
  · intro s t ty1 ty2 n1 a1 n2 a2 tcs hne
    simp [mergeStep, JValue.beq, hne]

/-- Claim C2, witness: a fragment with a different id closes the open call
and opens (and, being complete, immediately finishes) the new one. -/
theorem C2_toolcall_reassembly_witness :
    mergeStep ⟨some ⟨.str "1", "function", ⟨"get_", ""⟩⟩, []⟩
        [⟨.str "2", "function", ⟨"f", "\x7b\x7d"⟩⟩] =
      ⟨none, [⟨.str "1", "function", ⟨"get_", ""⟩⟩,
              ⟨.str "2", "function", ⟨"f", "\x7b\x7d"⟩⟩]⟩ :=
  (C2_toolcall_reassembly.2.1 "1" "2" "function" "function" "get_" "" "f" "\x7b\x7d" []
    (by decide)).trans rfl

/-- Claim C3, counterexample: an event whose delta carries visible content
`"hello"` together with a single incomplete tool-call fragment leaves the
open (pending) tool call in the state, yet the emitted chunk's message
content is `"hello"`, not empty: a pending tool call alone does not blank the
content. -/
theorem C3_pending_content_counterexample :
    handleEvent "m" [] loadsPendingContent {} 0 ⟨some ("dp"), none, none, none⟩ =
      .ok (⟨some ⟨.str "1", "function", ⟨"get_", ""⟩⟩, []⟩,
           some ⟨"m", [], ⟨0, none, ⟨"hello", []⟩, none, none⟩⟩) ∧
    ("hello" : String) ≠ "" := by
  exact ⟨rfl, by decide⟩

/-- Claim C3, amended: the emitted chunk's message content is forced to empty
whenever the completed tool-call list for this turn (after merging the
event's fragments) is non-empty; a merely pending (open but incomplete) tool
call does not blank the content. -/
theorem C3_content_blanking_amended :
    ∀ (model : String) (pms : List PromptMessage)
      (loads : String → Except String JValue) (st : AggState) (index : Nat)
      (ev : SseEvent) (d : String) (j ch : JValue) (rest : List JValue),
      ev.data = some d → strEndsWith d ("[DONE]") = false → loads d = .ok j →
      jChoices j = ch :: rest →
      (applyToolCallDelta st (jGetD ch "delta" (.obj []))).tool_calls ≠ [] →
      ∀ (st2 : AggState) (c : LLMResultChunk),
        handleEvent model pms loads st index ev = .ok (st2, some c) →
        c.delta.message.content = "" := by
  intro model pms loads st index ev d j ch rest hd hdone hloads hch hne st2 c hrun
  obtain ⟨evd, eve, evi, evr⟩ := ev
  simp only at hd
  subst hd
  rw [handleEvent] at hrun
  simp only [hdone, Bool.false_eq_true, if_false, hloads, hch] at hrun
  rw [processChoice] at hrun
  have hlen : (applyToolCallDelta st (jGetD ch "delta" (.obj []))).tool_calls.length > 0 :=
    List.length_pos.mpr hne
  simp only [hlen, if_true] at hrun
  by_cases hfr : jStrD ch "finish_reason" "" = "tool_calls" <;>
    simp only [hfr, if_true, if_false] at hrun <;>
    split at hrun <;>
    simp only [Except.ok.injEq, Prod.mk.injEq, Option.some.injEq] at hrun <;>
    rw [← hrun.2]

/-- Claim C3, amended, witness: completing the open tool call (second
fragment of the split stream) makes the completed list non-empty and the
emitted chunk's content empty. -/
theorem C3_content_blanking_amended_witness :
    (⟨"m", [], ⟨1, none, ⟨"", []⟩, none, none⟩⟩ : LLMResultChunk).delta.message.content =
      "" :=
  C3_content_blanking_amended "m" [] loadsToolCallStream
    ⟨some ⟨.str "1", "function", ⟨"get_", ""⟩⟩, []⟩ 1 ⟨some ("d2"), none, none, none⟩
    "d2"
    (.obj [("choices", .arr [.obj [("delta",
      .obj [("tool_calls", .arr [mkFragJson "1" "weather" "\x7b\"c\":\"sf\"\x7d"])])]])])
    (.obj [("delta",
      .obj [("tool_calls", .arr [mkFragJson "1" "weather" "\x7b\"c\":\"sf\"\x7d"])])])
    [] rfl rfl rfl rfl
    (fun h => Nat.one_ne_zero (congrArg List.length h))
    ⟨none, [⟨.str "1", "function", ⟨"get_weather", "\x7b\"c\":\"sf\"\x7d"⟩⟩]⟩
    ⟨"m", [], ⟨1, none, ⟨"", []⟩, none, none⟩⟩ rfl

/-- Claim C6: once an event whose first choice carries `finish_reason ==
"tool_calls"` is processed, the handler state is reset to the empty
aggregation state (no open tool call, empty completed list), and the chunk
emitted for that event carries the full completed list (the state after
merging that event's fragments). -/
theorem C6_turn_isolation :
    ∀ (model : String) (pms : List PromptMessage)
      (loads : String → Except String JValue) (st : AggState) (index : Nat)
      (ev : SseEvent) (d : String) (j ch : JValue) (rest : List JValue),
      ev.data = some d → strEndsWith d ("[DONE]") = false → loads d = .ok j →
      jChoices j = ch :: rest → jStrD ch "finish_reason" "" = "tool_calls" →
      (∀ (st2 : AggState) (oc : Option LLMResultChunk),
          handleEvent model pms loads st index ev = .ok (st2, oc) → st2 = {}) ∧
      (∀ (st2 : AggState) (c : LLMResultChunk),
          handleEvent model pms loads st index ev = .ok (st2, some c) →
          c.delta.message.tool_calls =
            (applyToolCallDelta st (jGetD ch "delta" (.obj []))).tool_calls) := by
  intro model pms loads st index ev d j ch rest hd hdone hloads hch hfr
  obtain ⟨evd, eve, evi, evr⟩ := ev
  simp only at hd
  subst hd
  constructor
  · intro st2 oc hrun
    rw [handleEvent] at hrun
    simp only [hdone, Bool.false_eq_true, if_false, hloads, hch] at hrun
    rw [processChoice] at hrun
    simp only [hfr, if_true] at hrun
    simp only [show ("tool_calls" : String).length > 0 from by decide, if_true] at hrun
    simp only [Except.ok.injEq, Prod.mk.injEq] at hrun
    exact hrun.1.symm
  · intro st2 c hrun
    rw [handleEvent] at hrun
    simp only [hdone, Bool.false_eq_true, if_false, hloads, hch] at hrun
    rw [processChoice] at hrun
    simp only [hfr, if_true] at hrun
    simp only [show ("tool_calls" : String).length > 0 from by decide, if_true] at hrun
    simp only [Except.ok.injEq, Prod.mk.injEq, Option.some.injEq] at hrun
    rw [← hrun.2]

/-- Claim C6, witness: the terminal `tool_calls` event of the split-fragment
stream, processed from a state holding one completed call, resets the state
and attaches the completed list to its chunk. -/
theorem C6_turn_isolation_witness :
    ({} : AggState) = {} ∧
    (⟨"m", [], ⟨2, some ("assistant"),
        ⟨"", [⟨.str "1", "function", ⟨"get_weather", "\x7b\"c\":\"sf\"\x7d"⟩⟩]⟩,
        some ⟨0, 0⟩, some ("tool_calls")⟩⟩ : LLMResultChunk).delta.message.tool_calls =
      (applyToolCallDelta
          ⟨none, [⟨.str "1", "function", ⟨"get_weather", "\x7b\"c\":\"sf\"\x7d"⟩⟩]⟩
          (jGetD (.obj [("finish_reason", .str "tool_calls")]) "delta"
            (.obj []))).tool_calls := by
  have h := C6_turn_isolation "m" [] loadsToolCallStream
    ⟨none, [⟨.str "1", "function", ⟨"get_weather", "\x7b\"c\":\"sf\"\x7d"⟩⟩]⟩ 2
    ⟨some ("d3"), none, none, none⟩ "d3"
    (.obj [("choices", .arr [.obj [("finish_reason", .str "tool_calls")]])])
    (.obj [("finish_reason", .str "tool_calls")]) [] rfl rfl rfl rfl rfl
  exact ⟨h.1 {} (some ⟨"m", [], ⟨2, some ("assistant"),
      ⟨"", [⟨.str "1", "function", ⟨"get_weather", "\x7b\"c\":\"sf\"\x7d"⟩⟩]⟩,
      some ⟨0, 0⟩, some ("tool_calls")⟩⟩) rfl,
    h.2 {} ⟨"m", [], ⟨2, some ("assistant"),
      ⟨"", [⟨.str "1", "function", ⟨"get_weather", "\x7b\"c\":\"sf\"\x7d"⟩⟩]⟩,
      some ⟨0, 0⟩, some ("tool_calls")⟩⟩ rfl⟩

/-- A string has positive length exactly when it is not the empty string. -/
theorem string_length_pos_iff (s : String) : 0 < s.length ↔ s ≠ "" := by
  cases s with
  | mk l =>
      cases l with
      | nil => simp [String.length, String.ext_iff]
      | cons c cs => simp [String.length, String.ext_iff]

/-- Every chunk emitted for an event carries that event's enumeration index. -/
theorem handleEvent_chunk_index (model : String) (pms : List PromptMessage)
    (loads : String → Except String JValue) (st : AggState) (index : Nat)
    (ev : SseEvent) (st2 : AggState) (c : LLMResultChunk)
    (h : handleEvent model pms loads st index ev = .ok (st2, some c)) :
    c.delta.index = index := by
  obtain ⟨evd, eve, evi, evr⟩ := ev
  cases evd with
  | none => simp [handleEvent] at h
  | some d =>
      rw [handleEvent] at h
      by_cases hdone : strEndsWith d ("[DONE]") = true
      · simp [hdone] at h
      · simp only [Bool.not_eq_true] at hdone
        simp only [hdone, Bool.false_eq_true, if_false] at h
        cases hl : loads d with
        | error msg => rw [hl] at h; simp at h
        | ok data =>
            simp only [hl] at h
            cases hc : jChoices data with
            | nil => simp only [hc] at h; simp at h
            | cons choice rest =>
                simp only [hc] at h
                rw [processChoice] at h
                split at h <;>
                  simp only [Except.ok.injEq, Prod.mk.injEq, Option.some.injEq] at h <;>
                  rw [← h.2]

/-- Chunks produced from the tail of the event list carry indices at least as
large as the running enumeration index. -/
theorem goStream_index_lb (model : String) (pms : List PromptMessage)
    (loads : String → Except String JValue) :
    ∀ (evs : List SseEvent) (st : AggState) (index : Nat) (c : LLMResultChunk),
      c ∈ (goStream model pms loads st index evs).1 → index ≤ c.delta.index := by
  intro evs
  induction evs with
  | nil => intro st index c h; simp [goStream] at h
  | cons ev rest ih =>
      intro st index c h
      rw [goStream] at h
      cases he : handleEvent model pms loads st index ev with
      | error e => rw [he] at h; simp at h
      | ok r =>
          obtain ⟨st', oc⟩ := r
          cases oc with
          | none =>
              rw [he] at h
              have := ih st' (index + 1) c h
              omega
          | some c0 =>
              rw [he] at h
              simp only [List.mem_cons] at h
              rcases h with h | h
              · subst h
                rw [handleEvent_chunk_index model pms loads st index ev st' c he]
              · have := ih st' (index + 1) c h
                omega

/-- The indices of the emitted chunks are strictly increasing: emission order
equals event-index order. -/
theorem goStream_pairwise (model : String) (pms : List PromptMessage)
    (loads : String → Except String JValue) :
    ∀ (evs : List SseEvent) (st : AggState) (index : Nat),
      ((goStream model pms loads st index evs).1.map
        (fun c => c.delta.index)).Pairwise (· < ·) := by
  intro evs
  induction evs with
  | nil => intro st index; simp [goStream]
  | cons ev rest ih =>
      intro st index
      rw [goStream]
      cases he : handleEvent model pms loads st index ev with
      | error e => simp
      | ok r =>
          obtain ⟨st', oc⟩ := r
          cases oc with
          | none => exact ih st' (index + 1)
          | some c0 =>
              simp only [List.map_cons, List.pairwise_cons]
              refine ⟨?_, ih st' (index + 1)⟩
              intro x hx
              obtain ⟨c, hc, hx⟩ := List.mem_map.mp hx
              subst hx
              have h1 := goStream_index_lb model pms loads rest st' (index + 1) c hc
              have h2 := handleEvent_chunk_index model pms loads st index ev st' c0 he
              omega

/-- Claim C9: an emitted chunk carries usage exactly when its event's
finish reason is a non-empty string, the chunk's index equals the 0-based
enumeration position of the originating event, and the emitted indices are
strictly increasing across the whole stream (emission order equals
event-index order). -/
theorem C9_usage_terminal_and_order :
    (∀ (model : String) (pms : List PromptMessage)
        (loads : String → Except String JValue) (st : AggState) (index : Nat)
        (ev : SseEvent) (d : String) (j ch : JValue) (rest : List JValue),
        ev.data = some d → strEndsWith d ("[DONE]") = false → loads d = .ok j →
        jChoices j = ch :: rest →
        ∀ (st2 : AggState) (c : LLMResultChunk),
          handleEvent model pms loads st index ev = .ok (st2, some c) →
          c.delta.index = index ∧
          (c.delta.usage.isSome ↔ jStrD ch "finish_reason" "" ≠ "")) ∧
    (∀ (model : String) (pms : List PromptMessage)
        (loads : String → Except String JValue) (events : List SseEvent),
        ((handle_stream_chat_response model pms loads events).1.map
          (fun c => c.delta.index)).Pairwise (· < ·)) := by
  constructor
  · intro model pms loads st index ev d j ch rest hd hdone hloads hch st2 c hrun
    obtain ⟨evd, eve, evi, evr⟩ := ev
    simp only at hd
    subst hd
    rw [handleEvent] at hrun
    simp only [hdone, Bool.false_eq_true, if_false, hloads, hch] at hrun
    rw [processChoice] at hrun
    by_cases hfr : 0 < (jStrD ch "finish_reason" "").length
    · simp only [gt_iff_lt, hfr, if_true] at hrun
      simp only [Except.ok.injEq, Prod.mk.injEq, Option.some.injEq] at hrun
      rw [← hrun.2]
      exact ⟨rfl, by simp [(string_length_pos_iff _).mp hfr]⟩
    · simp only [gt_iff_lt, hfr, if_false] at hrun
      simp only [Except.ok.injEq, Prod.mk.injEq, Option.some.injEq] at hrun
      rw [← hrun.2]
      have : jStrD ch "finish_reason" "" = "" := by
        by_contra hne
        exact hfr ((string_length_pos_iff _).mpr hne)
      simp [this]
  · intro model pms loads events
    exact goStream_pairwise model pms loads events {} 0

/-- Claim C9, witness: the terminal event of the split-fragment stream emits
the chunk with index 2 carrying usage, its finish reason being non-empty. -/
theorem C9_usage_terminal_and_order_witness :
    (⟨"m", [], ⟨2, some ("assistant"),
        ⟨"", [⟨.str "1", "function", ⟨"get_weather", "\x7b\"c\":\"sf\"\x7d"⟩⟩]⟩,
        some ⟨0, 0⟩, some ("tool_calls")⟩⟩ : LLMResultChunk).delta.index = 2 ∧
    ((⟨"m", [], ⟨2, some ("assistant"),
        ⟨"", [⟨.str "1", "function", ⟨"get_weather", "\x7b\"c\":\"sf\"\x7d"⟩⟩]⟩,
        some ⟨0, 0⟩, some ("tool_calls")⟩⟩ : LLMResultChunk).delta.usage.isSome ↔
      jStrD (.obj [("finish_reason", .str "tool_calls")]) "finish_reason" "" ≠ "") :=
  C9_usage_terminal_and_order.1 "m" [] loadsToolCallStream
    ⟨none, [⟨.str "1", "function", ⟨"get_weather", "\x7b\"c\":\"sf\"\x7d"⟩⟩]⟩ 2
    ⟨some ("d3"), none, none, none⟩ "d3"
    (.obj [("choices", .arr [.obj [("finish_reason", .str "tool_calls")]])])
    (.obj [("finish_reason", .str "tool_calls")]) [] rfl rfl rfl rfl {}
    ⟨"m", [], ⟨2, some ("assistant"),
      ⟨"", [⟨.str "1", "function", ⟨"get_weather", "\x7b\"c\":\"sf\"\x7d"⟩⟩]⟩,
      some ⟨0, 0⟩, some ("tool_calls")⟩⟩ rfl

/-! ## Claim theorems about the message mapper and the invoker -/

/-- Claim C7, counterexample: for an assistant tool call whose source
arguments string is the literal two-character brace string, the serialised
`Arguments` equals the original although the original is non-empty, so
"equals the original if and only if the original is empty" fails in its
only-if direction. -/
theorem C7_arguments_iff_counterexample :
    convert_prompt_messages_to_dicts
        [.assistant none [⟨"1", "function", ⟨"f", "\x7b\x7d"⟩⟩]] =
      [.obj [("Role", .str "assistant"), ("Content", .str " "),
             ("ToolCalls", .arr [.obj [("Id", .str "1"), ("Type", .str "function"),
               ("Function", .obj [("Name", .str "f"),
                 ("Arguments", .str "\x7b\x7d")])]])]] ∧
    ("\x7b\x7d" : String) ≠ "" := by
  exact ⟨rfl, by decide⟩

/-- Claim C7, amended: an assistant message with at least one tool call is
mapped to a wire message whose `Content` is the single non-empty placeholder
`" "`, and each serialised tool call's `Arguments` is the original arguments
string when that string is empty and the literal two-character brace string
when it is non-empty (the two coincide when the original is itself that
literal). -/
theorem C7_assistant_toolcall_mapping_amended :
    ∀ (content : Option String) (tcs : List PMToolCall), tcs ≠ [] →
      convert_prompt_messages_to_dicts [.assistant content tcs] =
        [.obj [("Role", .str "assistant"), ("Content", .str " "),
               ("ToolCalls", .arr (tcs.map (fun tc =>
                  .obj [("Id", .str tc.id), ("Type", .str tc.type),
                        ("Function", .obj [("Name", .str tc.function.name),
                          ("Arguments", .str
                            (if tc.function.arguments = "" then tc.function.arguments
                             else "\x7b\x7d"))])])))]] ∧
      (" " : String) ≠ "" ∧
      (∀ a : String, a ≠ "" → (if a = "" then a else "\x7b\x7d") = "\x7b\x7d") := by
  intro content tcs h
  have hlen : tcs.length > 0 := List.length_pos.mpr h
  refine ⟨?_, by decide, ?_⟩
  · simp [convert_prompt_messages_to_dicts, hlen]
  · intro a ha; simp [ha]

/-- Claim C7, amended, witness: one empty-argument call is forwarded, one
non-empty-argument call is replaced by the brace literal; the content is the
placeholder. -/
theorem C7_assistant_toolcall_mapping_witness :
    convert_prompt_messages_to_dicts
        [.assistant none [⟨"1", "function", ⟨"f", ""⟩⟩,
                          ⟨"2", "function", ⟨"g", "x"⟩⟩]] =
      [.obj [("Role", .str "assistant"), ("Content", .str " "),
             ("ToolCalls", .arr
               [.obj [("Id", .str "1"), ("Type", .str "function"),
                 ("Function", .obj [("Name", .str "f"), ("Arguments", .str "")])],
                .obj [("Id", .str "2"), ("Type", .str "function"),
                 ("Function", .obj [("Name", .str "g"),
                   ("Arguments", .str "\x7b\x7d")])]])]] :=
  (C7_assistant_toolcall_mapping_amended none
    [⟨"1", "function", ⟨"f", ""⟩⟩, ⟨"2", "function", ⟨"g", "x"⟩⟩]
    (List.cons_ne_nil _ _)).1.trans rfl

/-- Claim C8: a response whose status is not 2xx makes the invocation fail
with the error carrying the status code and body text, before any part of
the body is decoded (the error does not depend on the body lines), and no
chunk is produced. -/
theorem C8_fail_fast_on_bad_status :
    ∀ (loads : String → Except String JValue) (model : String)
      (pms : List PromptMessage) (stream : Bool) (response : HttpResponse),
      ¬ (200 ≤ response.status_code ∧ response.status_code ≤ 299) →
      invokeModel loads model pms stream response =
        .error ("Failed to access LLM API, status code: " ++
          toString response.status_code ++ ", message: " ++ response.text) := by
  intro loads model pms stream response h
  have hne : response.status_code ≠ 200 := by
    intro h200
    exact h ⟨by omega, by omega⟩
  rw [invokeModel]
  simp [hne]

/-- Claim C8, witness: a status-500 response with an arbitrary SSE body fails
with the transport error, whatever the body holds. -/
theorem C8_fail_fast_on_bad_status_witness :
    invokeModel loadsUnused "m" [] true ⟨500, "boom", ["data: x", ""]⟩ =
      .error ("Failed to access LLM API, status code: 500, message: boom") :=
  (C8_fail_fast_on_bad_status loadsUnused "m" [] true ⟨500, "boom", ["data: x", ""]⟩
    (by decide)).trans rfl
